import Mathlib

/-!
Verification of the verde scattered-data gridding engine, as specified by the
tutorial `tutorials/projections.py` and its accompanying specification.

The tutorial file is glue code over the verde library; the engine itself
(Region, BlockReducer, Fitter/Spline, GridBuilder, DistanceMask) is not part
of the repository sources.  Every component below is therefore modelled from
the specification's component contracts (spec sections 3, 4, 6 and 7), using
exact rational arithmetic.  Euclidean distances enter every contract only
through monotone comparisons or through a caller-selectable radial kernel, so
they are represented by squared distances throughout (with kernels taking the
squared distance as argument); the `+infinity` distance threshold is
represented by `⊤` in `WithTop ℚ`.
-/

namespace Verde

/-- Modelled from the spec: squared Euclidean distance between two points of
the plane (spec 4.3/4.5: "Euclidean distance", represented by its square). -/
def sqdist (p q : ℚ × ℚ) : ℚ := (p.1 - q.1) ^ 2 + (p.2 - q.2) ^ 2

/-- Modelled from the spec (section 3): an axis-aligned bounding box
`(min0, max0, min1, max1)`. -/
structure Region where
  xmin : ℚ
  xmax : ℚ
  ymin : ℚ
  ymax : ℚ
deriving DecidableEq

/-- Modelled from the spec (section 7): the error kinds of the engine. -/
inductive VerdeError where
  | emptyInput
  | dimensionMismatch
  | singularSystem
  | invalidSpacing
deriving DecidableEq

/-- Modelled from the spec (4.1): `bounding_region(coordinates)` computes the
per-axis (min, max) over all points; it fails on empty input (modelled by
`none`). -/
def bounding_region : List (ℚ × ℚ) → Option Region
  | [] => none
  | p :: ps =>
      some (ps.foldl
        (fun r q =>
          { xmin := min r.xmin q.1, xmax := max r.xmax q.1,
            ymin := min r.ymin q.2, ymax := max r.ymax q.2 })
        { xmin := p.1, xmax := p.1, ymin := p.2, ymax := p.2 })

/-- Modelled from the spec (section 3): a grid holds two axis coordinate
arrays and named 2D data arrays (rows indexed by the second axis, columns by
the first); a missing value is `none`. -/
structure Grid where
  xs : List ℚ
  ys : List ℚ
  data : List (String × List (List (Option ℚ)))
deriving DecidableEq

/-- A grid is well-formed when every named data array has exactly one row per
`ys` entry and one column per `xs` entry (the Grid invariant of spec
section 3). -/
def Grid.wf (g : Grid) : Prop :=
  ∀ nd ∈ g.data, nd.2.length = g.ys.length ∧ ∀ row ∈ nd.2, row.length = g.xs.length

instance (g : Grid) : Decidable g.wf :=
  inferInstanceAs
    (Decidable (∀ nd ∈ g.data, nd.2.length = g.ys.length ∧
      ∀ row ∈ nd.2, row.length = g.xs.length))

/-- Modelled from the spec (4.2): the block an input point falls in, by
axis-wise floor-division of its offset from the region origin by the block
size; the resulting half-open intervals are lower-inclusive. -/
def blockOf (o : ℚ × ℚ) (bs : ℚ) (p : ℚ × ℚ) : ℤ × ℤ :=
  (⌊(p.1 - o.1) / bs⌋, ⌊(p.2 - o.2) / bs⌋)

/-- Row-major order on block indices: by row (second axis) first, then by
column. -/
def rowMajorLE (a b : ℤ × ℤ) : Prop :=
  a.2 < b.2 ∨ (a.2 = b.2 ∧ a.1 ≤ b.1)

instance : DecidableRel rowMajorLE := fun a b =>
  inferInstanceAs (Decidable (a.2 < b.2 ∨ (a.2 = b.2 ∧ a.1 ≤ b.1)))

/-- Modelled from the spec (4.2): the origin used for block assignment — the
lower corner of the caller-supplied region if one is given, else of the
bounding region of the points. -/
def blockOrigin (region : Option Region) (pts : List (ℚ × ℚ)) : ℚ × ℚ :=
  match region with
  | some r => (r.xmin, r.ymin)
  | none =>
      match bounding_region pts with
      | some r => (r.xmin, r.ymin)
      | none => (0, 0)

/-- The distinct block indices that received at least one point, listed in
row-major order (the deterministic block-traversal order of spec 4.2). -/
def occupiedBlocks (o : ℚ × ℚ) (bs : ℚ) (pts : List (ℚ × ℚ)) : List (ℤ × ℤ) :=
  List.insertionSort rowMajorLE (pts.map (blockOf o bs)).dedup

/-- Modelled from the spec (4.2): the number of non-empty blocks implied by
the region (origin) and block size for a given point set. -/
def nonemptyBlockCount (region : Option Region) (bs : ℚ) (pts : List (ℚ × ℚ)) : ℕ :=
  ((pts.map (blockOf (blockOrigin region pts) bs)).dedup).length

/-- Modelled from the spec (4.2): `BlockReduce.filter(coordinates, values,
block_size)`.  Input points are the aligned triples of the parallel
coordinate and value sequences.  Every point is assigned to exactly one block
by `blockOf`; each non-empty block, in row-major order, contributes one
output row whose coordinates and value are the caller-supplied aggregation of
the coordinates and values of the points that fell in it (the same
aggregation is applied to coordinates and to values, the documented
consistent choice of spec 4.2).  Empty blocks contribute nothing. -/
def BlockReduce.filter (agg : List ℚ → ℚ) (bs : ℚ) (region : Option Region)
    (xs ys vs : List ℚ) : List ℚ × List ℚ × List ℚ :=
  let rows := (xs.zip ys).zip vs
  let pts := rows.map Prod.fst
  let o := blockOrigin region pts
  let blocks := occupiedBlocks o bs pts
  let inBlock := fun (b : ℤ × ℤ) => rows.filter (fun r => blockOf o bs r.1 == b)
  (blocks.map (fun b => agg ((inBlock b).map (fun r => r.1.1))),
   blocks.map (fun b => agg ((inBlock b).map (fun r => r.1.2))),
   blocks.map (fun b => agg ((inBlock b).map (fun r => r.2))))

/-- Modelled from the spec (section 3): a fitted model owns the reduced
training coordinates, one weight per training point, and the radial kernel it
was fitted with (the kernel takes the squared Euclidean distance). -/
structure FittedModel where
  K : ℚ → ℚ
  coords : List (ℚ × ℚ)
  weights : List ℚ

/-- Modelled from the spec (4.3): `predict` evaluates the fitted basis
expansion at one query point: the weighted sum of the kernel applied to the
(squared) distance from the query to every training point. -/
def FittedModel.predictAt (m : FittedModel) (q : ℚ × ℚ) : ℚ :=
  (m.coords.zip m.weights).foldr (fun cw acc => cw.2 * m.K (sqdist q cw.1) + acc) 0

/-- Modelled from the spec (4.4): the number of spacing-sized intervals a mesh
axis uses to cover `[lo, hi]` — the far edge is always included and the
effective spacing adjusted (the documented exact-fit policy), with at least
one interval. -/
def nIntervals (lo hi spacing : ℚ) : ℕ := max 1 ⌈(hi - lo) / spacing⌉.toNat

/-- `n + 1` evenly spaced axis nodes from `lo` to `hi`. -/
def linspace (lo hi : ℚ) (n : ℕ) : List ℚ :=
  (List.range (n + 1)).map (fun i => lo + (hi - lo) * i / n)

/-- Modelled from the spec (4.4): the axis nodes of a regular mesh covering
`[lo, hi]` at the given spacing (exact-fit policy, far edge included). -/
def axisNodes (lo hi spacing : ℚ) : List ℚ := linspace lo hi (nIntervals lo hi spacing)

/-- Modelled from the spec (4.3/4.4): `grid(region, spacing, projection,
data_names)`.  The region defaults to the bounding region of the training
coordinates.  Nodes are generated in the output frame from the region and
spacing; when a projection is supplied each node is passed through it (the
vectorized forward projection is modelled pointwise) before being handed to
`predict`; the stored coordinate arrays are always the output-frame mesh
axes. -/
def Spline.grid (m : FittedModel) (region : Option Region) (spacing : ℚ)
    (projection : Option ((ℚ × ℚ) → (ℚ × ℚ))) (dataName : String) : Grid :=
  let r := match region with
    | some r => r
    | none => (bounding_region m.coords).getD ⟨0, 0, 0, 0⟩
  let axX := axisNodes r.xmin r.xmax spacing
  let axY := axisNodes r.ymin r.ymax spacing
  let nodeRow := fun (y : ℚ) => axX.map (fun x => (x, y))
  let projRow := fun (y : ℚ) => match projection with
    | none => nodeRow y
    | some f => (nodeRow y).map f
  { xs := axX, ys := axY,
    data := [(dataName, axY.map (fun y => (projRow y).map (fun p => some (m.predictAt p))))] }

/-- Modelled from the spec (4.5): the squared Euclidean distance from a point
to the nearest of a list of reference points, `⊤` when the list is empty. -/
def minSqdistTop (refs : List (ℚ × ℚ)) (p : ℚ × ℚ) : WithTop ℚ :=
  refs.foldr (fun r acc => min ((sqdist p r : ℚ) : WithTop ℚ) acc) ⊤

/-- One row of the distance mask: the row's cells paired with their x
coordinates; a cell is set to the missing marker exactly when the (squared)
distance from its node to the nearest reference point exceeds the (squared)
threshold. -/
def maskRow (t : WithTop ℚ) (refs : List (ℚ × ℚ)) (y : ℚ) :
    List (ℚ × Option ℚ) → List (Option ℚ)
  | [] => []
  | xv :: rest =>
      (if t < minSqdistTop refs (xv.1, y) then none else xv.2) :: maskRow t refs y rest

/-- The distance mask applied to one named data array: every row is masked
against its node coordinates. -/
def maskArr (t : WithTop ℚ) (refs : List (ℚ × ℚ)) (xs ys : List ℚ)
    (arr : List (List (Option ℚ))) : List (List (Option ℚ)) :=
  (ys.zip arr).map (fun row => maskRow t refs row.1 (xs.zip row.2))

/-- Modelled from the spec (4.5): `distance_mask(reference_points,
max_distance, grid, projection)`.  Reference points are first projected into
the grid's frame when a projection is supplied; every named data array is
then masked node-wise against the distance to the nearest reference point.
The threshold is the squared maximum distance, with `⊤` standing for
`+infinity`. -/
def projectedRefs (refs : List (ℚ × ℚ))
    (projection : Option ((ℚ × ℚ) → (ℚ × ℚ))) : List (ℚ × ℚ) :=
  match projection with
  | none => refs
  | some f => refs.map f

def distance_mask (refs : List (ℚ × ℚ)) (t : WithTop ℚ) (g : Grid)
    (projection : Option ((ℚ × ℚ) → (ℚ × ℚ))) : Grid :=
  { g with
    data := g.data.map
      (fun nd => (nd.1, maskArr t (projectedRefs refs projection) g.xs g.ys nd.2)) }

/-- The node coordinates of the grid cell in row `i` (second axis) and column
`j` (first axis). -/
def Grid.nodeAt (g : Grid) (i j : ℕ) : ℚ × ℚ := (g.xs.getD j 0, g.ys.getD i 0)

/-- The cell of the named data array of a grid at row `i`, column `j`:
`none` when the name or the indices do not resolve. -/
def Grid.valueAt (g : Grid) (name : String) (i j : ℕ) : Option (Option ℚ) :=
  ((g.data.lookup name).bind (fun arr => arr[i]?)).bind (fun row => row[j]?)

/-- A small concrete grid: a 1×2 mesh with one named data array. -/
def exGrid : Grid := { xs := [0, 1], ys := [0], data := [("d", [[some 1, none]])] }

/-- A one-point reference set at the origin. -/
def exRefs : List (ℚ × ℚ) := [(0, 0)]

/-- Modelled from the spec (4.3): the interpolation system matrix — entry
`(i, j)` is the radial kernel evaluated at the (squared) distance between
training points `i` and `j`. -/
def splineMatrix {n : ℕ} (K : ℚ → ℚ) (coords : Fin n → ℚ × ℚ) :
    Matrix (Fin n) (Fin n) ℚ :=
  Matrix.of fun i j => K (sqdist (coords i) (coords j))

/-- The inverse of a square rational matrix, computed from the determinant
and the adjugate. -/
def matInv {n : ℕ} (A : Matrix (Fin n) (Fin n) ℚ) : Matrix (Fin n) (Fin n) ℚ :=
  A.det⁻¹ • A.adjugate

/-- Modelled from the spec (4.3): the least-squares spline weights — the
ridge-damped normal equations `(AᵀA + λI) w = Aᵀ v` solved for `w`. -/
def fitWeights {n : ℕ} (K : ℚ → ℚ) (coords : Fin n → ℚ × ℚ) (values : Fin n → ℚ)
    (damping : ℚ) : Fin n → ℚ :=
  let A := splineMatrix K coords
  (matInv (A.transpose * A + damping • 1)).mulVec (A.transpose.mulVec values)

/-- Modelled from the spec (4.3): evaluation of the fitted basis expansion at
a query point, in indexed form. -/
def predict {n : ℕ} (K : ℚ → ℚ) (coords : Fin n → ℚ × ℚ) (w : Fin n → ℚ)
    (q : ℚ × ℚ) : ℚ :=
  ∑ j, w j * K (sqdist q (coords j))

/-- Modelled from the spec (4.3): `fit(coordinates, values, damping)` checks
that the parallel sequences are aligned — failing with
`DimensionMismatchError` otherwise — and solves the damped least-squares
system for the weights, producing an immutable fitted model. -/
def Spline.fit (K : ℚ → ℚ) (xs ys vs : List ℚ) (damping : ℚ) :
    Except VerdeError FittedModel :=
  if xs.length = vs.length ∧ ys.length = vs.length then
    let w := fitWeights K (fun i : Fin vs.length => (xs.getD i 0, ys.getD i 0))
      (fun i : Fin vs.length => vs.getD i 0) damping
    Except.ok { K := K, coords := xs.zip ys, weights := (List.finRange vs.length).map w }
  else Except.error VerdeError.dimensionMismatch

/-- C1: gridding with the identity function supplied as the projection
produces exactly the grid produced with no projection argument: the same node
coordinate arrays and the same predicted data arrays, for every model, region
and spacing. -/
theorem grid_identity_projection (m : FittedModel) (region : Option Region)
    (spacing : ℚ) (dataName : String) :
    Spline.grid m region spacing (some (fun p => p)) dataName =
      Spline.grid m region spacing none dataName := by
  unfold Spline.grid
  simp [List.map_id']

/-- C10: calling `grid` with the region omitted defaults the region to the
bounding region of the training coordinates: it returns the same grid as
passing that bounding region explicitly. -/
theorem grid_default_region (m : FittedModel) (spacing : ℚ)
    (projection : Option ((ℚ × ℚ) → (ℚ × ℚ))) (dataName : String) (r : Region)
    (h : bounding_region m.coords = some r) :
    Spline.grid m none spacing projection dataName =
      Spline.grid m (some r) spacing projection dataName := by
  unfold Spline.grid
  rw [h]
  rfl

/-- A concrete instance of C10: a model fitted at two training points, whose
bounding region is computed and then passed explicitly. -/
theorem grid_default_region_witness :
    bounding_region [((0 : ℚ), (0 : ℚ)), (2, 3)] = some ⟨0, 2, 0, 3⟩ ∧
      Spline.grid ⟨id, [((0 : ℚ), (0 : ℚ)), (2, 3)], [1, 1]⟩ none 1 none "bathymetry" =
        Spline.grid ⟨id, [((0 : ℚ), (0 : ℚ)), (2, 3)], [1, 1]⟩ (some ⟨0, 2, 0, 3⟩) 1 none
          "bathymetry" := by
  constructor
  · rfl
  · exact grid_default_region ⟨id, [((0 : ℚ), (0 : ℚ)), (2, 3)], [1, 1]⟩ 1 none "bathymetry"
      ⟨0, 2, 0, 3⟩ (by rfl)

/-- The value output of `BlockReduce.filter` is never longer than the first
coordinate input: there is one output row per occupied block and at most one
occupied block per input point. -/
lemma filter_value_length_le (agg : List ℚ → ℚ) (bs : ℚ) (region : Option Region)
    (xs ys vs : List ℚ) :
    (BlockReduce.filter agg bs region xs ys vs).2.2.length ≤ xs.length := by
  simp only [BlockReduce.filter, List.length_map, occupiedBlocks, List.length_insertionSort]
  calc ((((xs.zip ys).zip vs).map Prod.fst).map
          (blockOf (blockOrigin region (((xs.zip ys).zip vs).map Prod.fst)) bs)).dedup.length
      ≤ ((((xs.zip ys).zip vs).map Prod.fst).map
          (blockOf (blockOrigin region (((xs.zip ys).zip vs).map Prod.fst)) bs)).length :=
        (List.dedup_sublist _).length_le
    _ ≤ xs.length := by
        simp only [List.length_map, List.length_zip]
        omega

/-- All three outputs of `BlockReduce.filter` share one length: the number of
occupied blocks. -/
lemma filter_component_lengths (agg : List ℚ → ℚ) (bs : ℚ) (region : Option Region)
    (xs ys vs : List ℚ) :
    (BlockReduce.filter agg bs region xs ys vs).1.length =
        (BlockReduce.filter agg bs region xs ys vs).2.1.length ∧
      (BlockReduce.filter agg bs region xs ys vs).2.1.length =
        (BlockReduce.filter agg bs region xs ys vs).2.2.length := by
  simp [BlockReduce.filter]

/-- C4: on a scattered dataset of equal positive length and a valid block
size, the reduced coordinate and value sequences all have the same length,
and that common length is at most the number of non-empty blocks determined
by the region and the block size. -/
theorem blockreduce_output_lengths (agg : List ℚ → ℚ) (bs : ℚ) (region : Option Region)
    (xs ys vs : List ℚ) (hx : xs.length = vs.length) (hy : ys.length = vs.length)
    (_hpos : 0 < vs.length) (_hbs : 0 < bs) :
    (BlockReduce.filter agg bs region xs ys vs).1.length =
        (BlockReduce.filter agg bs region xs ys vs).2.1.length ∧
      (BlockReduce.filter agg bs region xs ys vs).2.1.length =
        (BlockReduce.filter agg bs region xs ys vs).2.2.length ∧
      (BlockReduce.filter agg bs region xs ys vs).2.2.length ≤
        nonemptyBlockCount region bs (xs.zip ys) := by
  obtain ⟨h1, h2⟩ := filter_component_lengths agg bs region xs ys vs
  refine ⟨h1, h2, ?_⟩
  have hmap : (((xs.zip ys).zip vs).map Prod.fst) = xs.zip ys := by
    apply List.map_fst_zip
    simp only [List.length_zip]
    omega
  simp only [BlockReduce.filter, List.length_map, occupiedBlocks,
    List.length_insertionSort, hmap, nonemptyBlockCount, le_refl]

/-- C4 at a concrete dataset: two coordinate sequences and one value sequence
of length 2, block size 1. -/
theorem blockreduce_output_lengths_witness :
    ([(0 : ℚ), 7].length = [(1 : ℚ), 2].length ∧ [(0 : ℚ), 3].length = [(1 : ℚ), 2].length ∧
        0 < [(1 : ℚ), 2].length ∧ (0 : ℚ) < 1) ∧
      ((BlockReduce.filter (fun l => l.headD 0) 1 none [0, 7] [0, 3] [1, 2]).1.length =
          (BlockReduce.filter (fun l => l.headD 0) 1 none [0, 7] [0, 3] [1, 2]).2.1.length ∧
        (BlockReduce.filter (fun l => l.headD 0) 1 none [0, 7] [0, 3] [1, 2]).2.1.length =
          (BlockReduce.filter (fun l => l.headD 0) 1 none [0, 7] [0, 3] [1, 2]).2.2.length ∧
        (BlockReduce.filter (fun l => l.headD 0) 1 none [0, 7] [0, 3] [1, 2]).2.2.length ≤
          nonemptyBlockCount none 1 ([(0 : ℚ), 7].zip [(0 : ℚ), 3])) :=
  ⟨⟨rfl, rfl, by norm_num, by norm_num⟩,
    blockreduce_output_lengths (fun l => l.headD 0) 1 none [0, 7] [0, 3] [1, 2]
      rfl rfl (by norm_num) (by norm_num)⟩

/-- C5: re-running `BlockReduce.filter` on its own output with a block size
at least the original one produces an output no longer than the first
reduction's output. -/
theorem blockreduce_refilter_length_le (agg : List ℚ → ℚ) (bs bs2 : ℚ)
    (xs ys vs : List ℚ) (_h : bs ≤ bs2) :
    (BlockReduce.filter agg bs2 none
        (BlockReduce.filter agg bs none xs ys vs).1
        (BlockReduce.filter agg bs none xs ys vs).2.1
        (BlockReduce.filter agg bs none xs ys vs).2.2).2.2.length ≤
      (BlockReduce.filter agg bs none xs ys vs).2.2.length := by
  obtain ⟨h1, h2⟩ := filter_component_lengths agg bs none xs ys vs
  calc (BlockReduce.filter agg bs2 none
          (BlockReduce.filter agg bs none xs ys vs).1
          (BlockReduce.filter agg bs none xs ys vs).2.1
          (BlockReduce.filter agg bs none xs ys vs).2.2).2.2.length
      ≤ (BlockReduce.filter agg bs none xs ys vs).1.length := filter_value_length_le _ _ _ _ _ _
    _ = (BlockReduce.filter agg bs none xs ys vs).2.2.length := h1.trans h2

/-- C5 at a concrete dataset: three points reduced with block size 1, then
re-reduced with block size 2. -/
theorem blockreduce_refilter_length_le_witness :
    (1 : ℚ) ≤ 2 ∧
      (BlockReduce.filter (fun l => l.headD 0) 2 none
          (BlockReduce.filter (fun l => l.headD 0) 1 none [0, 3, 7] [0, 0, 0] [1, 2, 3]).1
          (BlockReduce.filter (fun l => l.headD 0) 1 none [0, 3, 7] [0, 0, 0] [1, 2, 3]).2.1
          (BlockReduce.filter (fun l => l.headD 0) 1 none [0, 3, 7] [0, 0, 0]
            [1, 2, 3]).2.2).2.2.length ≤
        (BlockReduce.filter (fun l => l.headD 0) 1 none [0, 3, 7] [0, 0, 0] [1, 2, 3]).2.2.length :=
  ⟨by norm_num,
    blockreduce_refilter_length_le (fun l => l.headD 0) 1 2 [0, 3, 7] [0, 0, 0] [1, 2, 3]
      (by norm_num)⟩

/-- C6: block assignment is axis-wise floor-division relative to the region
origin with half-open lower-inclusive intervals — a point belongs to block
`(kx, ky)` exactly when each axis offset lies in `[k·bs, (k+1)·bs)` — and the
three points (0.1, 0.1), (0.2, 0.2), (9.9, 9.9) with block size 5 over region
(0, 10, 0, 10) reduce to exactly two output points, the first aggregated from
the first two input points and the second from the third. -/
theorem blockreduce_assignment_and_scenario (ox oy bs : ℚ) (p : ℚ × ℚ) (kx ky : ℤ)
    (agg : List ℚ → ℚ) (v1 v2 v3 : ℚ) (hbs : 0 < bs) :
    (blockOf (ox, oy) bs p = (kx, ky) ↔
        ((ox + kx * bs ≤ p.1 ∧ p.1 < ox + (kx + 1) * bs) ∧
          (oy + ky * bs ≤ p.2 ∧ p.2 < oy + (ky + 1) * bs))) ∧
      BlockReduce.filter agg 5 (some ⟨0, 10, 0, 10⟩)
          [1/10, 2/10, 99/10] [1/10, 2/10, 99/10] [v1, v2, v3] =
        ([agg [1/10, 2/10], agg [99/10]],
          [agg [1/10, 2/10], agg [99/10]],
          [agg [v1, v2], agg [v3]]) := by
  constructor
  · rw [blockOf, Prod.mk.injEq, Int.floor_eq_iff, Int.floor_eq_iff,
      le_div_iff₀ hbs, div_lt_iff₀ hbs, le_div_iff₀ hbs, div_lt_iff₀ hbs]
    push_cast
    constructor <;> intro h <;>
      exact ⟨⟨by linarith [h.1.1, h.1.2], by linarith [h.1.1, h.1.2]⟩,
        ⟨by linarith [h.2.1, h.2.2], by linarith [h.2.1, h.2.2]⟩⟩
  · have ha : blockOf ((0 : ℚ), (0 : ℚ)) 5 ((1 : ℚ)/10, (1 : ℚ)/10) = (0, 0) := by
      unfold blockOf
      norm_num
    have hb : blockOf ((0 : ℚ), (0 : ℚ)) 5 ((2 : ℚ)/10, (2 : ℚ)/10) = (0, 0) := by
      unfold blockOf
      norm_num
    have hc : blockOf ((0 : ℚ), (0 : ℚ)) 5 ((99 : ℚ)/10, (99 : ℚ)/10) = (1, 1) := by
      unfold blockOf
      norm_num
    have hd : ([((0 : ℤ), (0 : ℤ)), (0, 0), (1, 1)]).dedup = [(0, 0), (1, 1)] := by decide
    have hsort : List.insertionSort rowMajorLE [((0 : ℤ), (0 : ℤ)), (1, 1)] =
        [(0, 0), (1, 1)] := by decide
    have hq1 : ((((0 : ℤ), (0 : ℤ))) == (((0 : ℤ), (0 : ℤ)))) = true := by decide
    have hq2 : ((((0 : ℤ), (0 : ℤ))) == (((1 : ℤ), (1 : ℤ)))) = false := by decide
    have hq3 : ((((1 : ℤ), (1 : ℤ))) == (((0 : ℤ), (0 : ℤ)))) = false := by decide
    have hq4 : ((((1 : ℤ), (1 : ℤ))) == (((1 : ℤ), (1 : ℤ)))) = true := by decide
    simp only [BlockReduce.filter, blockOrigin, occupiedBlocks, List.zip_cons_cons,
      List.zip_nil_right, List.map_cons, List.map_nil, ha, hb, hc, hd, hsort]
    simp only [List.filter_cons, List.filter_nil, ha, hb, hc, hq1, hq2, hq3, hq4,
      Bool.false_eq_true, List.map_cons, List.map_nil, if_true, if_false, ite_true, ite_false]

/-- C6 at concrete inputs: the boundary point (5, 5) with block size 5 and
origin (0, 0) belongs to block (1, 1) — the block whose half-open interval
starts at that shared edge — and the three-point scenario with the head
aggregation. -/
theorem blockreduce_assignment_and_scenario_witness :
    (0 : ℚ) < 5 ∧
      ((blockOf ((0 : ℚ), (0 : ℚ)) 5 (5, 5) = (1, 1) ↔
          (((0 : ℚ) + (1 : ℤ) * 5 ≤ 5 ∧ (5 : ℚ) < 0 + ((1 : ℤ) + 1) * 5) ∧
            ((0 : ℚ) + (1 : ℤ) * 5 ≤ 5 ∧ (5 : ℚ) < 0 + ((1 : ℤ) + 1) * 5))) ∧
        BlockReduce.filter (fun l => l.headD 0) 5 (some ⟨0, 10, 0, 10⟩)
            [1/10, 2/10, 99/10] [1/10, 2/10, 99/10] [1, 2, 3] =
          ([(fun l => l.headD (0 : ℚ)) [1/10, 2/10], (fun l => l.headD (0 : ℚ)) [99/10]],
            [(fun l => l.headD (0 : ℚ)) [1/10, 2/10], (fun l => l.headD (0 : ℚ)) [99/10]],
            [(fun l => l.headD (0 : ℚ)) [1, 2], (fun l => l.headD (0 : ℚ)) [3]])) :=
  ⟨by norm_num,
    blockreduce_assignment_and_scenario 0 0 5 (5, 5) 1 1 (fun l => l.headD 0) 1 2 3
      (by norm_num)⟩

lemma sqdist_nonneg (p q : ℚ × ℚ) : 0 ≤ sqdist p q :=
  add_nonneg (sq_nonneg _) (sq_nonneg _)

lemma sqdist_eq_zero_iff (p q : ℚ × ℚ) : sqdist p q = 0 ↔ p = q := by
  unfold sqdist
  rw [add_eq_zero_iff_of_nonneg (sq_nonneg _) (sq_nonneg _),
    pow_eq_zero_iff (two_ne_zero), pow_eq_zero_iff (two_ne_zero),
    sub_eq_zero, sub_eq_zero]
  exact Prod.ext_iff.symm

/-- The squared distance to the nearest reference point is positive exactly
when the query point coincides with no reference point. -/
lemma minSqdistTop_pos_iff (refs : List (ℚ × ℚ)) (p : ℚ × ℚ) :
    0 < minSqdistTop refs p ↔ p ∉ refs := by
  induction refs with
  | nil =>
      refine iff_of_true ?_ (List.not_mem_nil p)
      simp only [minSqdistTop, List.foldr_nil]
      rw [← WithTop.coe_zero]
      exact WithTop.coe_lt_top 0
  | cons r rs ih =>
      simp only [minSqdistTop, List.foldr_cons] at ih ⊢
      rw [lt_min_iff, ih, List.mem_cons, not_or]
      apply and_congr_left
      intro _
      rw [← WithTop.coe_zero, WithTop.coe_lt_coe]
      exact ((sqdist_nonneg p r).lt_iff_ne.trans ne_comm).trans
        (not_congr (sqdist_eq_zero_iff p r))

lemma maskRow_length (t : WithTop ℚ) (refs : List (ℚ × ℚ)) (y : ℚ) :
    ∀ l, (maskRow t refs y l).length = l.length := by
  intro l
  induction l with
  | nil => rfl
  | cons xv l ih => simp [maskRow, ih]

lemma maskRow_getElem (t : WithTop ℚ) (refs : List (ℚ × ℚ)) (y : ℚ) :
    ∀ (l : List (ℚ × Option ℚ)) (j : ℕ),
      (maskRow t refs y l)[j]? =
        (l[j]?).map (fun xv => if t < minSqdistTop refs (xv.1, y) then none else xv.2) := by
  intro l
  induction l with
  | nil => intro j; simp [maskRow]
  | cons xv l ih =>
      intro j
      cases j with
      | zero => simp [maskRow]
      | succ j => simpa [maskRow] using ih j

lemma maskRow_top (refs : List (ℚ × ℚ)) (y : ℚ) :
    ∀ l, maskRow ⊤ refs y l = l.map Prod.snd := by
  intro l
  induction l with
  | nil => rfl
  | cons xv l ih => simp [maskRow, ih, not_top_lt]

lemma maskArr_top (refs : List (ℚ × ℚ)) (xs : List ℚ) :
    ∀ (arr : List (List (Option ℚ))) (ys : List ℚ),
      arr.length = ys.length → (∀ row ∈ arr, row.length = xs.length) →
      maskArr ⊤ refs xs ys arr = arr := by
  intro arr
  induction arr with
  | nil => intro ys _ _; simp [maskArr]
  | cons row arr ih =>
      intro ys hlen hrows
      cases ys with
      | nil => simp at hlen
      | cons y ys2 =>
          simp only [maskArr, List.zip_cons_cons, List.map_cons]
          rw [maskRow_top]
          refine congrArg₂ List.cons ?_ ?_
          · exact List.map_snd_zip xs row
              (le_of_eq (hrows row (List.mem_cons_self row arr)))
          · have h2 := ih ys2 (by simpa using hlen)
              (fun r hr => hrows r (List.mem_cons_of_mem _ hr))
            simpa [maskArr] using h2

lemma maskArr_shape (t : WithTop ℚ) (refs : List (ℚ × ℚ)) (xs : List ℚ) :
    ∀ (arr : List (List (Option ℚ))) (ys : List ℚ),
      arr.length = ys.length → (∀ row ∈ arr, row.length = xs.length) →
      (maskArr t refs xs ys arr).length = arr.length ∧
        (maskArr t refs xs ys arr).map List.length = arr.map List.length := by
  intro arr
  induction arr with
  | nil => intro ys _ _; simp [maskArr]
  | cons row arr ih =>
      intro ys hlen hrows
      cases ys with
      | nil => simp at hlen
      | cons y ys2 =>
          have hrow : row.length = xs.length := hrows row (List.mem_cons_self row arr)
          have h2 := ih ys2 (by simpa using hlen)
            (fun r hr => hrows r (List.mem_cons_of_mem _ hr))
          simp only [maskArr, List.zip_cons_cons, List.map_cons, List.length_cons] at h2 ⊢
          refine ⟨by rw [h2.1], ?_⟩
          refine congrArg₂ List.cons ?_ h2.2
          rw [maskRow_length, List.length_zip, hrow, min_self]

lemma lookup_map_data (F : List (List (Option ℚ)) → List (List (Option ℚ))) :
    ∀ (l : List (String × List (List (Option ℚ)))) (name : String),
      (l.map (fun nd => (nd.1, F nd.2))).lookup name = (l.lookup name).map F := by
  intro l
  induction l with
  | nil => intro name; simp [List.lookup]
  | cons nd l ih =>
      obtain ⟨k, arr⟩ := nd
      intro name
      cases hk : name == k <;> simp [List.lookup, hk, ih]

lemma lookup_mem :
    ∀ (l : List (String × List (List (Option ℚ)))) (name : String)
      (arr : List (List (Option ℚ))),
      l.lookup name = some arr → ∃ k, (k, arr) ∈ l := by
  intro l
  induction l with
  | nil => intro name arr h; simp [List.lookup] at h
  | cons nd l ih =>
      obtain ⟨k, a⟩ := nd
      intro name arr h
      cases hk : name == k with
      | true =>
          simp only [List.lookup, hk, Option.some.injEq] at h
          exact ⟨k, by rw [← h]; exact List.mem_cons_self _ _⟩
      | false =>
          simp only [List.lookup, hk] at h
          obtain ⟨k2, hmem⟩ := ih name arr h
          exact ⟨k2, List.mem_cons_of_mem _ hmem⟩

/-- The cell-level behaviour of `distance_mask`: at every in-range node, the
returned value is the original one, replaced by the missing marker exactly
when the (squared) distance from the node to the nearest (projected)
reference point exceeds the (squared) threshold. -/
lemma distance_mask_valueAt (refs : List (ℚ × ℚ)) (t : WithTop ℚ) (g : Grid)
    (projection : Option ((ℚ × ℚ) → (ℚ × ℚ))) (name : String) (i j : ℕ)
    (hwf : g.wf) (hi : i < g.ys.length) (hj : j < g.xs.length) :
    (distance_mask refs t g projection).valueAt name i j =
      (g.valueAt name i j).map (fun v =>
        if t < minSqdistTop (projectedRefs refs projection) (g.nodeAt i j)
        then none else v) := by
  unfold distance_mask Grid.valueAt
  rw [lookup_map_data (maskArr t (projectedRefs refs projection) g.xs g.ys)]
  cases hlk : g.data.lookup name with
  | none => simp
  | some arr =>
      obtain ⟨k, hmem⟩ := lookup_mem g.data name arr hlk
      obtain ⟨hlen, hrows⟩ := hwf (k, arr) hmem
      dsimp only at hlen hrows
      have hiarr : i < arr.length := by omega
      have hrowlen : arr[i].length = g.xs.length := hrows _ (List.getElem_mem hiarr)
      have hzip_i : i < (g.ys.zip arr).length := by
        rw [List.length_zip]
        omega
      have hzip_j : j < (g.xs.zip arr[i]).length := by
        rw [List.length_zip]
        omega
      have e1 : (g.ys.zip arr)[i]? = some (g.ys[i], arr[i]) := by
        rw [List.getElem?_eq_getElem hzip_i, List.getElem_zip]
      have e2 : (g.xs.zip arr[i])[j]? = some (g.xs[j], arr[i][j]) := by
        rw [List.getElem?_eq_getElem hzip_j, List.getElem_zip]
      have e3 : arr[i]? = some arr[i] := List.getElem?_eq_getElem hiarr
      have e4 : arr[i][j]? = some arr[i][j] := List.getElem?_eq_getElem (by omega)
      have e5 : g.nodeAt i j = (g.xs[j], g.ys[i]) := by
        unfold Grid.nodeAt
        rw [List.getD_eq_getElem _ _ hj, List.getD_eq_getElem _ _ hi]
      simp only [Option.map_some, Option.some_bind, maskArr, List.getElem?_map,
        e1, e2, e3, e4, e5, maskRow_getElem]
      simp [maskArr, List.getElem?_map, e1, e2, e3, e4, maskRow_getElem]

/-- C8: with a projection supplied, the reference points are projected into
the grid's frame, and each node's value is replaced by the missing marker
exactly when the Euclidean distance (represented by its square) from the node
to the nearest projected reference point exceeds the threshold; values within
the threshold are kept as they were. -/
theorem distance_mask_projected_euclidean (refs : List (ℚ × ℚ)) (t : WithTop ℚ)
    (g : Grid) (f : (ℚ × ℚ) → (ℚ × ℚ)) (name : String) (i j : ℕ)
    (hwf : g.wf) (hi : i < g.ys.length) (hj : j < g.xs.length) :
    (distance_mask refs t g (some f)).valueAt name i j =
      (g.valueAt name i j).map (fun v =>
        if t < minSqdistTop (refs.map f) (g.nodeAt i j) then none else v) :=
  distance_mask_valueAt refs t g (some f) name i j hwf hi hj

/-- C8 at a concrete grid, reference set, projection and node. -/
theorem distance_mask_projected_euclidean_witness :
    (exGrid.wf ∧ 0 < exGrid.ys.length ∧ 1 < exGrid.xs.length) ∧
      (distance_mask exRefs 0 exGrid (some (fun p => p))).valueAt "d" 0 1 =
        (exGrid.valueAt "d" 0 1).map (fun v =>
          if (0 : WithTop ℚ) < minSqdistTop (exRefs.map (fun p => p)) (exGrid.nodeAt 0 1)
          then none else v) :=
  ⟨⟨by decide, by decide, by decide⟩,
    distance_mask_projected_euclidean exRefs 0 exGrid (fun p => p) "d" 0 1
      (by decide) (by decide) (by decide)⟩

/-- C3: with threshold 0 the mask sets the missing marker at every in-range
node not exactly coincident with some reference point and keeps coincident
nodes unchanged; with threshold `+infinity` (`⊤`) the grid is returned
entirely unchanged. -/
theorem distance_mask_zero_and_infinity (g : Grid) (refs : List (ℚ × ℚ))
    (hwf : g.wf) (_hne : refs ≠ []) :
    (∀ name i j, i < g.ys.length → j < g.xs.length →
        (distance_mask refs 0 g none).valueAt name i j =
          (g.valueAt name i j).map
            (fun v => if g.nodeAt i j ∈ refs then v else none)) ∧
      distance_mask refs ⊤ g none = g := by
  constructor
  · intro name i j hi hj
    rw [distance_mask_valueAt refs 0 g none name i j hwf hi hj]
    simp only [projectedRefs]
    have hfun : (fun v : Option ℚ =>
        if (0 : WithTop ℚ) < minSqdistTop refs (g.nodeAt i j) then none else v) =
        (fun v : Option ℚ => if g.nodeAt i j ∈ refs then v else none) := by
      funext v
      by_cases hmem : g.nodeAt i j ∈ refs
      · have hlt : ¬ (0 : WithTop ℚ) < minSqdistTop refs (g.nodeAt i j) := by
          rw [minSqdistTop_pos_iff]
          exact not_not_intro hmem
        rw [if_neg hlt, if_pos hmem]
      · have hlt : (0 : WithTop ℚ) < minSqdistTop refs (g.nodeAt i j) :=
          (minSqdistTop_pos_iff refs _).mpr hmem
        rw [if_pos hlt, if_neg hmem]
    rw [hfun]
  · have hdata : g.data.map
        (fun nd => (nd.1, maskArr ⊤ (projectedRefs refs none) g.xs g.ys nd.2)) = g.data := by
      conv_rhs => rw [← List.map_id g.data]
      apply List.map_congr_left
      intro nd hnd
      obtain ⟨hlen, hrows⟩ := hwf nd hnd
      rw [maskArr_top _ _ nd.2 g.ys hlen hrows]
      rfl
    unfold distance_mask
    rw [hdata]

/-- C3 at a concrete grid and reference set: the node (0, 0) coincides with
the single reference point. -/
theorem distance_mask_zero_and_infinity_witness :
    (exGrid.wf ∧ exRefs ≠ []) ∧
      ((distance_mask exRefs 0 exGrid none).valueAt "d" 0 0 =
          (exGrid.valueAt "d" 0 0).map
            (fun v => if exGrid.nodeAt 0 0 ∈ exRefs then v else none) ∧
        distance_mask exRefs ⊤ exGrid none = exGrid) :=
  ⟨⟨by decide, by decide⟩,
    (distance_mask_zero_and_infinity exGrid exRefs (by decide) (by decide)).1 "d" 0 0
      (by decide) (by decide),
    (distance_mask_zero_and_infinity exGrid exRefs (by decide) (by decide)).2⟩

/-- C9: the distance mask never changes the grid's coordinate arrays, and the
named data arrays keep their names and shapes. -/
theorem distance_mask_preserves_coords (refs : List (ℚ × ℚ)) (t : WithTop ℚ)
    (g : Grid) (projection : Option ((ℚ × ℚ) → (ℚ × ℚ))) (hwf : g.wf) :
    (distance_mask refs t g projection).xs = g.xs ∧
      (distance_mask refs t g projection).ys = g.ys ∧
      (distance_mask refs t g projection).data.map
          (fun nd => (nd.1, nd.2.length, nd.2.map List.length)) =
        g.data.map (fun nd => (nd.1, nd.2.length, nd.2.map List.length)) := by
  refine ⟨rfl, rfl, ?_⟩
  unfold distance_mask
  rw [List.map_map]
  apply List.map_congr_left
  intro nd hnd
  obtain ⟨hlen, hrows⟩ := hwf nd hnd
  obtain ⟨h1, h2⟩ := maskArr_shape t (projectedRefs refs projection) g.xs nd.2 g.ys hlen hrows
  simp [Function.comp, h1, h2]

/-- C9 at a concrete grid. -/
theorem distance_mask_preserves_coords_witness :
    exGrid.wf ∧
      ((distance_mask exRefs 0 exGrid none).xs = exGrid.xs ∧
        (distance_mask exRefs 0 exGrid none).ys = exGrid.ys ∧
        (distance_mask exRefs 0 exGrid none).data.map
            (fun nd => (nd.1, nd.2.length, nd.2.map List.length)) =
          exGrid.data.map (fun nd => (nd.1, nd.2.length, nd.2.map List.length))) :=
  ⟨by decide, distance_mask_preserves_coords exRefs 0 exGrid none (by decide)⟩

lemma matInv_eq {n : ℕ} (A : Matrix (Fin n) (Fin n) ℚ) : matInv A = A⁻¹ := by
  unfold matInv
  rw [Matrix.inv_def, Ring.inverse_eq_inv]

/-- With zero damping and an invertible system matrix, the fitted weights
solve the interpolation system exactly. -/
lemma fitWeights_zero_damping {n : ℕ} (K : ℚ → ℚ) (coords : Fin n → ℚ × ℚ)
    (values : Fin n → ℚ) (h : IsUnit (splineMatrix K coords).det) :
    (splineMatrix K coords).mulVec (fitWeights K coords values 0) = values := by
  have hT : IsUnit (splineMatrix K coords).transpose.det := by
    rwa [Matrix.det_transpose]
  simp only [fitWeights]
  rw [matInv_eq, zero_smul, add_zero, Matrix.mulVec_mulVec, Matrix.mulVec_mulVec]
  have hone : splineMatrix K coords *
      ((splineMatrix K coords).transpose * splineMatrix K coords)⁻¹ *
      (splineMatrix K coords).transpose = 1 := by
    rw [Matrix.mul_inv_rev, ← Matrix.mul_assoc, Matrix.mul_nonsing_inv _ h,
      Matrix.one_mul, Matrix.nonsing_inv_mul _ hT]
  rw [hone, Matrix.one_mulVec]

/-- Evaluating the basis expansion at the `i`-th training point is the
`i`-th row of the system matrix applied to the weights. -/
lemma predict_training {n : ℕ} (K : ℚ → ℚ) (coords : Fin n → ℚ × ℚ)
    (w : Fin n → ℚ) (i : Fin n) :
    predict K coords w (coords i) = ((splineMatrix K coords).mulVec w) i := by
  simp [predict, Matrix.mulVec, Matrix.dotProduct, splineMatrix, mul_comm]

lemma fitWeights_interpolation {n : ℕ} (K : ℚ → ℚ) (coords : Fin n → ℚ × ℚ)
    (values : Fin n → ℚ) (h : IsUnit (splineMatrix K coords).det) (i : Fin n) :
    predict K coords (fitWeights K coords values 0) (coords i) = values i := by
  rw [predict_training, fitWeights_zero_damping K coords values h]

lemma coords_list_eq (xs ys vs : List ℚ) (hx : xs.length = vs.length)
    (hy : ys.length = vs.length) :
    xs.zip ys = (List.finRange vs.length).map
      (fun i : Fin vs.length => (xs.getD i 0, ys.getD i 0)) := by
  apply List.ext_getElem
  · simp [List.length_zip, hx, hy]
  · intro i h1 h2
    have hxi : i < xs.length := by simp [List.length_zip] at h1; omega
    have hyi : i < ys.length := by simp [List.length_zip] at h1; omega
    simp [List.getElem_zip, List.getElem_finRange, List.getD_eq_getElem _ _ hxi,
      List.getD_eq_getElem _ _ hyi]
    rw [List.getElem?_eq_getElem hxi, List.getElem?_eq_getElem hyi]
    exact ⟨rfl, rfl⟩

lemma predictAt_model {n : ℕ} (K : ℚ → ℚ) (c : Fin n → ℚ × ℚ) (w : Fin n → ℚ)
    (q : ℚ × ℚ) :
    FittedModel.predictAt ⟨K, (List.finRange n).map c, (List.finRange n).map w⟩ q =
      predict K c w q := by
  unfold FittedModel.predictAt predict
  rw [List.zip_map', List.foldr_map, Fin.sum_univ_def, List.sum_eq_foldr, List.foldr_map]

/-- C2: on a training dataset whose interpolation system is invertible
(well-conditioned, in exact arithmetic), fitting with zero damping succeeds
and the fitted model's prediction at every training coordinate is exactly the
training value. -/
theorem spline_fit_interpolation (K : ℚ → ℚ) (xs ys vs : List ℚ)
    (hx : xs.length = vs.length) (hy : ys.length = vs.length)
    (h : IsUnit (splineMatrix K
      (fun i : Fin vs.length => (xs.getD i 0, ys.getD i 0))).det) :
    ∃ m, Spline.fit K xs ys vs 0 = Except.ok m ∧
      ∀ i : Fin vs.length,
        m.predictAt (xs.getD i 0, ys.getD i 0) = vs.getD i 0 := by
  have hfit : Spline.fit K xs ys vs 0 = Except.ok
      { K := K, coords := xs.zip ys,
        weights := (List.finRange vs.length).map
          (fitWeights K (fun i : Fin vs.length => (xs.getD i 0, ys.getD i 0))
            (fun i : Fin vs.length => vs.getD i 0) 0) } := by
    unfold Spline.fit
    rw [if_pos (And.intro hx hy)]
  refine ⟨_, hfit, ?_⟩
  intro i
  rw [coords_list_eq xs ys vs hx hy, predictAt_model]
  exact fitWeights_interpolation K _ _ h i

/-- C2 at a concrete two-point dataset with the identity kernel: the system
matrix has determinant -1. -/
theorem spline_fit_interpolation_witness :
    ([(0 : ℚ), 1].length = [(3 : ℚ), 5].length ∧
        [(0 : ℚ), 0].length = [(3 : ℚ), 5].length ∧
        IsUnit (splineMatrix id (fun i : Fin ([(3 : ℚ), 5].length) =>
          ([(0 : ℚ), 1].getD i 0, [(0 : ℚ), 0].getD i 0))).det) ∧
      ∃ m, Spline.fit id [0, 1] [0, 0] [3, 5] 0 = Except.ok m ∧
        ∀ i : Fin ([(3 : ℚ), 5].length),
          m.predictAt ([(0 : ℚ), 1].getD i 0, [(0 : ℚ), 0].getD i 0) =
            [(3 : ℚ), 5].getD i 0 := by
  have hval : (splineMatrix id (fun i : Fin ([(3 : ℚ), 5].length) =>
      ([(0 : ℚ), 1].getD i 0, [(0 : ℚ), 0].getD i 0))).det = -1 := by
    show (splineMatrix id (fun i : Fin 2 =>
      ([(0 : ℚ), 1].getD i 0, [(0 : ℚ), 0].getD i 0))).det = -1
    rw [Matrix.det_fin_two]
    norm_num [splineMatrix, sqdist]
  have hdet : IsUnit (splineMatrix id (fun i : Fin ([(3 : ℚ), 5].length) =>
      ([(0 : ℚ), 1].getD i 0, [(0 : ℚ), 0].getD i 0))).det :=
    isUnit_iff_ne_zero.mpr (by rw [hval]; norm_num)
  exact ⟨⟨rfl, rfl, hdet⟩,
    spline_fit_interpolation id [0, 1] [0, 0] [3, 5] rfl rfl hdet⟩

/-- C7: `fit` fails with `DimensionMismatchError`, synchronously at the call,
whenever the coordinate sequences and the value sequence do not all share one
length; no fitted model is produced. -/
theorem fit_dimension_mismatch (K : ℚ → ℚ) (xs ys vs : List ℚ) (damping : ℚ)
    (h : ¬ (xs.length = vs.length ∧ ys.length = vs.length)) :
    Spline.fit K xs ys vs damping = Except.error VerdeError.dimensionMismatch := by
  unfold Spline.fit
  rw [if_neg h]

/-- C7 at a concrete mismatched dataset: one coordinate pair but no values. -/
theorem fit_dimension_mismatch_witness :
    ¬ ([(0 : ℚ)].length = ([] : List ℚ).length ∧
        [(0 : ℚ)].length = ([] : List ℚ).length) ∧
      Spline.fit id [0] [0] [] 0 = Except.error VerdeError.dimensionMismatch :=
  ⟨by decide, fit_dimension_mismatch id [0] [0] [] 0 (by decide)⟩

end Verde
